import Mathlib

/-!
Shallow embedding of the hierarchy-protection engine of
`source/ContainerObject.cpp` (the c4d-container-object plugin).

The embedding models:
* `HideHierarchy`  -> `hideObjNode` / `hideObjList` (objects),
  `hideTagNode` / `hideTagList` (tag chains, which have no children and no
  protection check), and `hideMTree` (a material processed with
  `sameLevel = false`, descending into its children).
* `HideMaterials`  -> `hideMaterialsObj` / `hideMaterialsList`.
* `ContainerObject::HideNodes` -> `hideNodes`.
* `ContainerObject::ToggleProtect` -> `toggleProtect` (the password dialog is
  an opaque `Option String` input, `none` meaning the user cancelled; the
  one-way hash is an opaque `String → String` parameter).
* `ContainerIsProtected` / `ContainerProtect` -> same names.
* `ContainerObject::Read` / `ContainerObject::Write` -> `readContainer` /
  `writeContainer` over a token-list model of the `HyperFile`.
-/

namespace ContainerSpec

/-- The six visibility bits toggled by `HideHierarchy`:
`NBIT_OHIDE`, `NBIT_TL1_HIDE` .. `NBIT_TL4_HIDE`, `NBIT_THIDE`. -/
structure VisBits where
  ohide : Bool
  tl1 : Bool
  tl2 : Bool
  tl3 : Bool
  tl4 : Bool
  thide : Bool
deriving DecidableEq, Repr

/-- All six bits set to the same value `b` (what one pass of the traversal
writes: `NBITCONTROL_SET` when hiding, `NBITCONTROL_CLEAR` when revealing). -/
def VisBits.all (b : Bool) : VisBits := ⟨b, b, b, b, b, b⟩

/-- A tag (`BaseTag`).  Tags have no children; a texture tag
(`GetType() == Ttexture`) may carry a link to a material, modelled as an
index into the document's material store (`none` models a failing
`GetParameter` or a null link). -/
structure Tag where
  vis : VisBits
  sel : Bool
  isTexture : Bool
  matLink : Option Nat
deriving DecidableEq, Repr

/-- The `ContainerObject` node data: members `m_protected` and
`m_protectionHash`. -/
structure CState where
  mProtected : Bool
  mHash : String
deriving DecidableEq, Repr

mutual
/-- An object (`BaseObject`) of the document tree.  `isContainerType` models
`GetType() == Ocontainer`; `nodeData` models `GetNodeData<ContainerObject>`
(`none` = null); `paramHash` models the string parameter
`CONTAINEROBJECT_PROTECTIONHASH` in the object's `BaseContainer`;
`hideTags` / `hideMats` model the parameters `NRCONTAINER_HIDE_TAGS` /
`NRCONTAINER_HIDE_MATERIALS`. -/
inductive Obj where
  | mk (vis : VisBits) (sel : Bool) (isContainerType : Bool) (paramHash : String)
       (nodeData : Option CState) (hideTags : Bool) (hideMats : Bool)
       (tags : List Tag) (children : ObjList)

/-- A sibling chain of objects (the `GetDown` / `GetNext` structure). -/
inductive ObjList where
  | nil
  | cons (head : Obj) (tail : ObjList)
end

def Obj.vis : Obj → VisBits
  | .mk v _ _ _ _ _ _ _ _ => v

def Obj.sel : Obj → Bool
  | .mk _ s _ _ _ _ _ _ _ => s

def Obj.isContainerType : Obj → Bool
  | .mk _ _ ty _ _ _ _ _ _ => ty

def Obj.paramHash : Obj → String
  | .mk _ _ _ ph _ _ _ _ _ => ph

def Obj.nodeData : Obj → Option CState
  | .mk _ _ _ _ nd _ _ _ _ => nd

def Obj.hideTags : Obj → Bool
  | .mk _ _ _ _ _ ht _ _ _ => ht

def Obj.hideMats : Obj → Bool
  | .mk _ _ _ _ _ _ hm _ _ => hm

def Obj.tags : Obj → List Tag
  | .mk _ _ _ _ _ _ _ ts _ => ts

def Obj.children : Obj → ObjList
  | .mk _ _ _ _ _ _ _ _ ch => ch

/-- Projection of an optional `ContainerObject` node data to its
`m_protected` member (`false` for a null pointer). -/
def protOf : Option CState → Bool
  | some d => d.mProtected
  | none => false

/-- `ContainerIsProtected(op)`: the object is non-null (guaranteed here by
being an `Obj`), has type `Ocontainer`, has node data, and that data's
`m_protected` is set. -/
def containerIsProtected (o : Obj) : Bool :=
  o.isContainerType && protOf o.nodeData

/-- The `hideChildren` flag computed inside `HideHierarchy` for an object:
`false` when `CONTAINEROBJECT_PROTECTIONHASH` is a non-empty string, else
`false` when `ContainerIsProtected`, else `true`. -/
def hideChildrenOf (o : Obj) : Bool :=
  if o.paramHash ≠ "" then false
  else if containerIsProtected o then false
  else true

mutual
/-- One visit of `HideHierarchy` on an object node: set or clear the six
visibility bits as a group, delete `BIT_ACTIVE` (the selection), and recurse
into the children unless the node blocks descent (`hideChildrenOf`). -/
def hideObjNode (hide : Bool) : Obj → Obj
  | o@(.mk _ _ ty ph nd ht hm ts ch) =>
    Obj.mk (VisBits.all hide) false ty ph nd ht hm ts
      (if hideChildrenOf o then hideObjList hide ch else ch)

/-- `HideHierarchy` with `sameLevel = true` over a sibling chain of
objects. -/
def hideObjList (hide : Bool) : ObjList → ObjList
  | .nil => .nil
  | .cons o os => .cons (hideObjNode hide o) (hideObjList hide os)
end

/-- One visit of `HideHierarchy` on a tag: tags are not `Obase` instances,
so no protection check applies, and they have no children. -/
def hideTagNode (hide : Bool) (t : Tag) : Tag :=
  { t with vis := VisBits.all hide, sel := false }

/-- `HideHierarchy` with `sameLevel = true` over a tag chain
(`GetFirstTag` / `GetNext`). -/
def hideTagList (hide : Bool) (ts : List Tag) : List Tag :=
  ts.map (hideTagNode hide)

mutual
/-- A material (`BaseMaterial`) with its own sub-hierarchy.  Materials are
not `Obase` instances, so `HideHierarchy` always descends into them. -/
inductive MTree where
  | mk (vis : VisBits) (sel : Bool) (children : MTreeList)

/-- A sibling chain of material sub-nodes. -/
inductive MTreeList where
  | nil
  | cons (head : MTree) (tail : MTreeList)
end

def MTree.vis : MTree → VisBits
  | .mk v _ _ => v

def MTree.sel : MTree → Bool
  | .mk _ s _ => s

mutual
/-- `HideHierarchy(mat, hide, doc, false)`: process the material itself,
descend into its children (with `sameLevel = true`), and stop (no step to
`GetNext`). -/
def hideMTree (hide : Bool) : MTree → MTree
  | .mk _ _ ch => .mk (VisBits.all hide) false (hideMTreeList hide ch)

def hideMTreeList (hide : Bool) : MTreeList → MTreeList
  | .nil => .nil
  | .cons m ms => .cons (hideMTree hide m) (hideMTreeList hide ms)
end

/-- The body of the tag loop of `HideMaterials` for a single tag: for a
texture tag whose material link resolves, apply `HideHierarchy` with
`sameLevel = false` to the referenced material in the store. -/
def hideMatOfTag (hide : Bool) (t : Tag) (store : List MTree) : List MTree :=
  if t.isTexture then
    match t.matLink with
    | some i =>
      match store.get? i with
      | some m => store.set i (hideMTree hide m)
      | none => store
    | none => store
  else store

/-- The tag loop of `HideMaterials` over an object's tag chain. -/
def hideMatsTags (hide : Bool) : List Tag → List MTree → List MTree
  | [], store => store
  | t :: ts, store => hideMatsTags hide ts (hideMatOfTag hide t store)

mutual
/-- `HideMaterials(op, hide, doc)`: process `op`'s tags, then recurse into
every child unconditionally (no protection-boundary check here). -/
def hideMaterialsObj (hide : Bool) : Obj → List MTree → List MTree
  | .mk _ _ _ _ _ _ _ ts ch, store => hideMaterialsList hide ch (hideMatsTags hide ts store)

def hideMaterialsList (hide : Bool) : ObjList → List MTree → List MTree
  | .nil, store => store
  | .cons o os, store => hideMaterialsList hide os (hideMaterialsObj hide o store)
end

/-- Rebuild an object with new tags and children, all other fields
unchanged (models in-place mutation of the tag chain / child chain). -/
def Obj.withTC (o : Obj) (ts : List Tag) (ch : ObjList) : Obj :=
  .mk o.vis o.sel o.isContainerType o.paramHash o.nodeData o.hideTags o.hideMats ts ch

/-- Rebuild an object with new node data (models mutating the members of
its `ContainerObject` data). -/
def Obj.withND (o : Obj) (nd : Option CState) : Obj :=
  .mk o.vis o.sel o.isContainerType o.paramHash nd o.hideTags o.hideMats o.tags o.children

/-- `ContainerObject::HideNodes(op, doc, hide)`.  When hiding: always hide
the children; hide the tag chain iff `NRCONTAINER_HIDE_TAGS`; hide the
referenced materials iff `NRCONTAINER_HIDE_MATERIALS`.  When revealing:
reveal children, tags and materials unconditionally. -/
def hideNodes (op : Obj) (hide : Bool) (store : List MTree) : Obj × List MTree :=
  if hide then
    let ch := hideObjList true op.children
    let ts := if op.hideTags then hideTagList true op.tags else op.tags
    let op1 := op.withTC ts ch
    (op1, if op.hideMats then hideMaterialsObj true op1 store else store)
  else
    let op1 := op.withTC (hideTagList false op.tags) (hideObjList false op.children)
    (op1, hideMaterialsObj false op1 store)

/-- Result of one `ToggleProtect` call: the container's node data, the
object tree, the material store, whether the change notification block
(`Message(MSG_CHANGE)` / `SetDirty` / `EventAdd`) was executed, and whether
the invalid-password message box was shown. -/
structure TPOut where
  cd : CState
  op : Obj
  store : List MTree
  notified : Bool
  authFail : Bool

/-- `ContainerObject::ToggleProtect(op)`.  `hashF` is the opaque
`HashString`; `prompt` is the opaque `PasswordDialog` result (`none` =
cancelled).  Locking: on cancel return before the notification block;
otherwise store the hash, set `m_protected`, hide.  Unlocking: if the
stored hash equals `HashString("")` unlock without consulting the prompt;
otherwise on cancel fall through (notification still runs); on hash
mismatch show the invalid-password message and fall through; on match
clear `m_protected` (the hash member is left as-is) and reveal. -/
def toggleProtect (hashF : String → String) (prompt : Option String)
    (cd : CState) (op : Obj) (store : List MTree) : TPOut :=
  if cd.mProtected = false then
    match prompt with
    | none => ⟨cd, op, store, false, false⟩
    | some pw =>
      let r := hideNodes op true store
      ⟨⟨true, hashF pw⟩, r.1, r.2, true, false⟩
  else
    if cd.mHash = hashF "" then
      let r := hideNodes op false store
      ⟨⟨false, cd.mHash⟩, r.1, r.2, true, false⟩
    else
      match prompt with
      | none => ⟨cd, op, store, true, false⟩
      | some pw =>
        if cd.mHash = hashF pw then
          let r := hideNodes op false store
          ⟨⟨false, cd.mHash⟩, r.1, r.2, true, false⟩
        else ⟨cd, op, store, true, true⟩

/-- The two toggles of the round-trip scenario: lock with password `pw`,
then immediately toggle again entering the same password. -/
def roundTrip (hashF : String → String) (pw : String)
    (cd : CState) (op : Obj) (store : List MTree) : TPOut :=
  let r1 := toggleProtect hashF (some pw) cd op store
  toggleProtect hashF (some pw) r1.cd r1.op r1.store

/-- `ContainerProtect(op, pass, hash, packup)`: fails on a null object, a
non-`Ocontainer` type, null node data, or an already protected container;
otherwise uses `hash` when non-empty (else `HashString(pass)`), sets the
lock members, and calls `HideNodes` iff `packup`. -/
def containerProtect (hashF : String → String) (opq : Option Obj)
    (pass : String) (hsh : String) (packup : Bool) (store : List MTree) :
    Bool × Option Obj × List MTree :=
  match opq with
  | none => (false, none, store)
  | some op =>
    if op.isContainerType = false then (false, some op, store)
    else
      match op.nodeData with
      | none => (false, some op, store)
      | some d =>
        if d.mProtected then (false, some op, store)
        else
          let h := if hsh = "" then hashF pass else hsh
          let op1 := op.withND (some ⟨true, h⟩)
          if packup then
            let r := hideNodes op1 true store
            (true, some r.1, r.2)
          else (true, some op1, store)

/-- A value stored in the `HyperFile`, as far as this class's record is
concerned: a boolean, a string, or an image blob. -/
inductive HFVal where
  | vbool (b : Bool)
  | vstr (s : String)
  | vimage
deriving DecidableEq, Repr

/-- The serializable state of a `ContainerObject` node data:
`m_customIcon != nullptr`, `m_protected`, `m_protectionHash`. -/
structure RWState where
  hasIcon : Bool
  mProtected : Bool
  mHash : String
deriving DecidableEq, Repr

/-- The node-data state established by `ContainerObject::Init`: no custom
icon, `m_protected = false`, `m_protectionHash = ""`. -/
def initRW : RWState := ⟨false, false, ""⟩

/-- `HyperFile::ReadBool`: consume one boolean token. -/
def readBool : List HFVal → Option (Bool × List HFVal)
  | HFVal.vbool b :: rest => some (b, rest)
  | _ => none

/-- `HyperFile::ReadString`: consume one string token. -/
def readString : List HFVal → Option (String × List HFVal)
  | HFVal.vstr s :: rest => some (s, rest)
  | _ => none

/-- `HyperFile::ReadImage`: consume one image token. -/
def readImage : List HFVal → Option (List HFVal)
  | HFVal.vimage :: rest => some rest
  | _ => none

/-- The version-1000 part of `ContainerObject::Read`: executed only when
`level >= 1000`; reads `m_protected`, and `m_protectionHash` only when the
boolean just read is true. -/
def readLockPart (level : Nat) (s : RWState) (f : List HFVal) :
    Option (RWState × List HFVal) :=
  if 1000 ≤ level then
    match readBool f with
    | none => none
    | some (p, f1) =>
      if p then
        match readString f1 with
        | none => none
        | some (h, f2) => some ({ s with mProtected := p, mHash := h }, f2)
      else some ({ s with mProtected := p }, f1)
  else some (s, f)

/-- `ContainerObject::Read` (the part written by this class): the version-0
custom-icon fields followed by the version-gated lock fields, applied to
the node data's pre-`Read` state `init`. -/
def readContainer (level : Nat) (init : RWState) (f : List HFVal) :
    Option (RWState × List HFVal) :=
  match readBool f with
  | none => none
  | some (hasImage, f1) =>
    if hasImage then
      match readImage f1 with
      | none => none
      | some f2 => readLockPart level { init with hasIcon := true } f2
    else readLockPart level { init with hasIcon := false } f1

/-- `ContainerObject::Write`: the version-0 custom-icon fields, then always
`m_protected`, then `m_protectionHash` only when protected (the full
version-1000 layout). -/
def writeContainer (s : RWState) : List HFVal :=
  [HFVal.vbool s.hasIcon] ++ (if s.hasIcon then [HFVal.vimage] else [])
    ++ [HFVal.vbool s.mProtected]
    ++ (if s.mProtected then [HFVal.vstr s.mHash] else [])

/-- A record as written by a version-0 writer: only the custom-icon
fields, no lock fields. -/
def writeContainerV0 (hasIcon : Bool) : List HFVal :=
  [HFVal.vbool hasIcon] ++ (if hasIcon then [HFVal.vimage] else [])

/-- Index access into a sibling chain. -/
def ObjList.get? : ObjList → Nat → Option Obj
  | .nil, _ => none
  | .cons o _, 0 => some o
  | .cons _ os, n + 1 => os.get? n

/-- The descendant of `o` reached by following the child indices in `p`
(`[]` is `o` itself). -/
def subtreeAt (o : Obj) : List Nat → Option Obj
  | [] => some o
  | i :: p =>
    match o.children.get? i with
    | some c => subtreeAt c p
    | none => none

mutual
/-- Every node of the subtree is fully visible (all six bits clear), its
`CONTAINEROBJECT_PROTECTIONHASH` parameter is empty, and it is not a
protected container: the precondition of the lock/unlock round trip. -/
def cleanTree : Obj → Bool
  | .mk v _ ty ph nd _ _ _ ch =>
    (v = VisBits.all false) && (ph = "") && !(ty && protOf nd) && cleanList ch

def cleanList : ObjList → Bool
  | .nil => true
  | .cons o os => cleanTree o && cleanList os
end

mutual
/-- The subtree with every node's selection cleared and everything else
unchanged: the expected outcome of the round trip on a clean subtree. -/
def deselTree : Obj → Obj
  | .mk v _ ty ph nd ht hm ts ch => .mk v false ty ph nd ht hm ts (deselList ch)

def deselList : ObjList → ObjList
  | .nil => .nil
  | .cons o os => .cons (deselTree o) (deselList os)
end

mutual
/-- Pre-order list of the visibility bits of every node of a subtree. -/
def visOfTree : Obj → List VisBits
  | .mk v _ _ _ _ _ _ _ ch => v :: visOfList ch

def visOfList : ObjList → List VisBits
  | .nil => []
  | .cons o os => visOfTree o ++ visOfList os
end

mutual
/-- Every node of the subtree has its selection flag cleared. -/
def allDeselTree : Obj → Bool
  | .mk _ s _ _ _ _ _ _ ch => !s && allDeselList ch

def allDeselList : ObjList → Bool
  | .nil => true
  | .cons o os => allDeselTree o && allDeselList os
end

/-! ### Helper lemmas -/

theorem hideChildrenOf_false_of_prot {o : Obj} (h : containerIsProtected o = true) :
    hideChildrenOf o = false := by
  by_cases hp : o.paramHash ≠ "" <;> simp [hideChildrenOf, hp, h]

theorem hideChildrenOf_false_of_param {o : Obj} (h : o.paramHash ≠ "") :
    hideChildrenOf o = false := by
  simp [hideChildrenOf, h]

theorem hideChildrenOf_mk (v : VisBits) (s ty : Bool) (ph : String)
    (nd : Option CState) (ht hm : Bool) (ts : List Tag) (ch : ObjList) :
    hideChildrenOf (Obj.mk v s ty ph nd ht hm ts ch) =
      (if ph ≠ "" then false else if ty && protOf nd then false else true) := by
  simp [hideChildrenOf, Obj.paramHash, containerIsProtected,
    Obj.isContainerType, Obj.nodeData]

theorem hideObjNode_children_blocked {hide : Bool} {o : Obj}
    (h : hideChildrenOf o = false) : (hideObjNode hide o).children = o.children := by
  cases o with
  | mk v s ty ph nd ht hm ts ch => simp [hideObjNode, Obj.children, h]

theorem hideObjNode_children_open {hide : Bool} {o : Obj}
    (h : hideChildrenOf o = true) :
    (hideObjNode hide o).children = hideObjList hide o.children := by
  cases o with
  | mk v s ty ph nd ht hm ts ch => simp [hideObjNode, Obj.children, h]

theorem hideObjList_get? (hide : Bool) :
    (l : ObjList) → (i : Nat) →
    (hideObjList hide l).get? i = (l.get? i).map (hideObjNode hide)
  | .nil, _ => by simp [hideObjList, ObjList.get?]
  | .cons o os, 0 => by simp [hideObjList, ObjList.get?]
  | .cons o os, n + 1 => by
      simp only [hideObjList, ObjList.get?]
      exact hideObjList_get? hide os n

theorem hideNodes_fst_children (op : Obj) (hide : Bool) (store : List MTree) :
    (hideNodes op hide store).1.children = hideObjList hide op.children := by
  cases hide <;> simp [hideNodes, Obj.withTC, Obj.children]

/-- Core freezing property of the traversal: once a node blocks descent, the
whole strict-descendant region below it is returned untouched, whatever the
path by which the traversal would reach it. -/
theorem subtreeAt_hide_frozen (hide : Bool) :
    (p : List Nat) → (o t : Obj) → subtreeAt o p = some t →
    hideChildrenOf t = false → (i : Nat) → (q : List Nat) →
    subtreeAt (hideObjNode hide o) (p ++ i :: q) = subtreeAt o (p ++ i :: q)
  | [], o, t, hsub, hblock, i, q => by
      have ho : t = o := by simpa [subtreeAt] using hsub.symm
      subst ho
      simp [subtreeAt, hideObjNode_children_blocked hblock]
  | j :: p', o, t, hsub, hblock, i, q => by
      simp only [subtreeAt] at hsub
      cases hcg : o.children.get? j with
      | none => rw [hcg] at hsub; exact absurd hsub (by simp)
      | some c =>
          rw [hcg] at hsub
          by_cases hco : hideChildrenOf o = true
          · simp only [List.cons_append, subtreeAt, hideObjNode_children_open hco,
              hideObjList_get?, hcg, Option.map_some']
            exact subtreeAt_hide_frozen hide p' c t hsub hblock i q
          · have hco' : hideChildrenOf o = false := by
              simpa using hco
            simp only [List.cons_append, subtreeAt,
              hideObjNode_children_blocked hco', hcg]

mutual
theorem unhide_hide_tree : (o : Obj) → cleanTree o = true →
    hideObjNode false (hideObjNode true o) = deselTree o
  | .mk v s ty ph nd ht hm ts ch, h => by
      simp only [cleanTree, Bool.and_eq_true, Bool.not_eq_true',
        decide_eq_true_eq] at h
      obtain ⟨⟨⟨hv, hph⟩, hprot⟩, hch⟩ := h
      simp [hideObjNode, hideChildrenOf_mk, hph, hprot, deselTree, hv,
        unhide_hide_list ch hch]

theorem unhide_hide_list : (l : ObjList) → cleanList l = true →
    hideObjList false (hideObjList true l) = deselList l
  | .nil, _ => rfl
  | .cons o os, h => by
      simp only [cleanList, Bool.and_eq_true] at h
      simp [hideObjList, deselList, unhide_hide_tree o h.1, unhide_hide_list os h.2]
end

mutual
theorem visOfTree_desel : (o : Obj) → visOfTree (deselTree o) = visOfTree o
  | .mk v s ty ph nd ht hm ts ch => by
      simp [deselTree, visOfTree, visOfList_desel ch]

theorem visOfList_desel : (l : ObjList) → visOfList (deselList l) = visOfList l
  | .nil => rfl
  | .cons o os => by
      simp [deselList, visOfList, visOfTree_desel o, visOfList_desel os]
end

mutual
theorem allDeselTree_desel : (o : Obj) → allDeselTree (deselTree o) = true
  | .mk v s ty ph nd ht hm ts ch => by
      simp [deselTree, allDeselTree, allDeselList_desel ch]

theorem allDeselList_desel : (l : ObjList) → allDeselList (deselList l) = true
  | .nil => rfl
  | .cons o os => by
      simp [deselList, allDeselList, allDeselTree_desel o, allDeselList_desel os]
end

/-! ### Concrete sample values for witnesses and counterexamples -/

/-- A fully visible, selected, plain (non-container) leaf object. -/
def wX : Obj := .mk (VisBits.all false) true false "" none false false [] .nil

/-- A locked inner container with `wX` as its only child. -/
def wB : Obj :=
  .mk (VisBits.all false) false true "" (some ⟨true, "h"⟩) false true [] (.cons wX .nil)

/-- An unlocked outer container with the locked `wB` as its only child. -/
def wA : Obj :=
  .mk (VisBits.all false) false true "" (some ⟨false, ""⟩) false true [] (.cons wB .nil)

/-- A plain object carrying a non-empty `CONTAINEROBJECT_PROTECTIONHASH`
parameter, with `wX` as its only child. -/
def wP : Obj :=
  .mk (VisBits.all false) false false "legacy" none false false [] (.cons wX .nil)

/-- An unlocked container with the parameter-protected `wP` as its only
child. -/
def wR : Obj :=
  .mk (VisBits.all false) false true "" (some ⟨false, ""⟩) false true [] (.cons wP .nil)

/-- A clean unlocked container with `wX` as its only child. -/
def wC : Obj :=
  .mk (VisBits.all false) false true "" (some ⟨false, ""⟩) false true [] (.cons wX .nil)

/-- A childless container object used by the state-machine scenarios. -/
def wE : Obj := .mk (VisBits.all false) false true "" none false true [] .nil

/-- A concrete stand-in for the opaque one-way hash. -/
def sampleHash (s : String) : String := "#" ++ s

/-! ### Claim theorems -/

/-- C8: every node visited by the hierarchy traversal gets all six
visibility bits set together when hiding and cleared together when
revealing — never partially — and its selection flag is cleared
unconditionally in both directions (shown for the object, tag and material
forms of the traversal). -/
theorem c8_bits_atomic (hide : Bool) (o : Obj) (t : Tag) (m : MTree) :
    ((hideObjNode hide o).vis.ohide = hide ∧ (hideObjNode hide o).vis.tl1 = hide
      ∧ (hideObjNode hide o).vis.tl2 = hide ∧ (hideObjNode hide o).vis.tl3 = hide
      ∧ (hideObjNode hide o).vis.tl4 = hide ∧ (hideObjNode hide o).vis.thide = hide
      ∧ (hideObjNode hide o).sel = false)
    ∧ ((hideTagNode hide t).vis = VisBits.all hide ∧ (hideTagNode hide t).sel = false)
    ∧ ((hideMTree hide m).vis = VisBits.all hide ∧ (hideMTree hide m).sel = false) := by
  cases o with
  | mk v s ty ph nd ht hm ts ch =>
      cases m with
      | mk mv ms mch =>
          exact ⟨⟨rfl, rfl, rfl, rfl, rfl, rfl, rfl⟩, ⟨rfl, rfl⟩, ⟨rfl, rfl⟩⟩

/-- C6: `HideNodes` with `hide = true` always hides the children, hides the
tags only under `NRCONTAINER_HIDE_TAGS`, and hides the referenced materials
only under `NRCONTAINER_HIDE_MATERIALS`; with `hide = false` it reveals
children, tags, and materials unconditionally, regardless of the two
flags. -/
theorem c6_orchestration (op : Obj) (store : List MTree) :
    ((hideNodes op true store).1.children = hideObjList true op.children)
    ∧ ((hideNodes op true store).1.tags
        = if op.hideTags then hideTagList true op.tags else op.tags)
    ∧ ((hideNodes op true store).2
        = if op.hideMats then hideMaterialsObj true (hideNodes op true store).1 store
          else store)
    ∧ ((hideNodes op false store).1.children = hideObjList false op.children)
    ∧ ((hideNodes op false store).1.tags = hideTagList false op.tags)
    ∧ ((hideNodes op false store).2
        = hideMaterialsObj false (hideNodes op false store).1 store) :=
  ⟨rfl, rfl, rfl, rfl, rfl, rfl⟩

/-- C2: with outer container `A` (unlocked) containing locked container `B`
containing object `X`, `HideNodes(A, hide = true)` returns `X` (and with it
all of `X`'s visibility bits) untouched: the traversal does not descend
into the children of a locked container. -/
theorem c2_boundary (A B X : Obj) (store : List MTree) (i j : Nat)
    (hA : containerIsProtected A = false)
    (hB : subtreeAt A [i] = some B)
    (hprot : containerIsProtected B = true)
    (hX : subtreeAt A [i, j] = some X) :
    subtreeAt ((hideNodes A true store).1) [i, j] = some X := by
  have hgi : A.children.get? i = some B := by
    simp only [subtreeAt] at hB
    cases hcg : A.children.get? i with
    | none => rw [hcg] at hB; exact absurd hB (by simp)
    | some c =>
        rw [hcg] at hB
        simp only [subtreeAt, Option.some.injEq] at hB
        rw [hB]
  have hgj : B.children.get? j = some X := by
    simp only [subtreeAt, hgi] at hX
    cases hcg : B.children.get? j with
    | none => rw [hcg] at hX; exact absurd hX (by simp)
    | some c =>
        rw [hcg] at hX
        simp only [subtreeAt, Option.some.injEq] at hX
        rw [hX]
  simp only [subtreeAt, hideNodes_fst_children, hideObjList_get?, hgi,
    Option.map_some']
  simp only [hideObjNode_children_blocked (hideChildrenOf_false_of_prot hprot), hgj,
    subtreeAt]

/-- C2 witness: the boundary theorem applied to the concrete scene
`wA ⊃ wB (locked) ⊃ wX`. -/
theorem c2_boundary_witness :
    (containerIsProtected wA = false ∧ subtreeAt wA [0] = some wB
      ∧ containerIsProtected wB = true ∧ subtreeAt wA [0, 0] = some wX)
    ∧ subtreeAt ((hideNodes wA true []).1) [0, 0] = some wX :=
  ⟨⟨by decide, rfl, by decide, rfl⟩,
   c2_boundary wA wB wX [] 0 0 (by decide) rfl (by decide) rfl⟩

/-- C10: descent is also skipped for any object (container or not) whose
`CONTAINEROBJECT_PROTECTIONHASH` parameter is a non-empty string: its
children are returned untouched by one traversal visit, and every strict
descendant of such a node is unchanged (visibility bits included) across a
`HideNodes` call — in either direction — on any ancestor. -/
theorem c10_paramhash_boundary (hide : Bool) (A t : Obj) (store : List MTree)
    (j : Nat) (p : List Nat) (i : Nat) (q : List Nat)
    (ht : subtreeAt A (j :: p) = some t)
    (hph : t.paramHash ≠ "") :
    (hideObjNode hide t).children = t.children
    ∧ subtreeAt ((hideNodes A hide store).1) (j :: (p ++ i :: q))
        = subtreeAt A (j :: (p ++ i :: q)) := by
  have hblock : hideChildrenOf t = false := hideChildrenOf_false_of_param hph
  refine ⟨hideObjNode_children_blocked hblock, ?_⟩
  simp only [subtreeAt] at ht
  cases hcg : A.children.get? j with
  | none => rw [hcg] at ht; exact absurd ht (by simp)
  | some c =>
      rw [hcg] at ht
      simp only [subtreeAt, hideNodes_fst_children, hideObjList_get?, hcg,
        Option.map_some']
      exact subtreeAt_hide_frozen hide p c t ht hblock i q

/-- C10 witness: the parameter-hash boundary applied to the concrete scene
`wR ⊃ wP (parameter-protected) ⊃ wX`. -/
theorem c10_paramhash_boundary_witness :
    (subtreeAt wR [0] = some wP ∧ wP.paramHash ≠ "")
    ∧ ((hideObjNode true wP).children = wP.children
      ∧ subtreeAt ((hideNodes wR true []).1) (0 :: ([] ++ 0 :: []))
          = subtreeAt wR (0 :: ([] ++ 0 :: []))) :=
  ⟨⟨rfl, by decide⟩,
   c10_paramhash_boundary true wR wP [] 0 [] 0 [] rfl (by decide)⟩

/-- C1: on a container whose subtree is fully visible and free of protected
nodes, `ToggleProtect` (locking with some password) followed by
`ToggleProtect` with the correct password restores every descendant's six
visibility bits to their pre-lock values, and leaves every visited node's
selection flag cleared (selection is not restored). -/
theorem c1_round_trip (hashF : String → String) (pw : String) (cd : CState)
    (op : Obj) (store : List MTree)
    (h1 : cd.mProtected = false) (h2 : cleanList op.children = true) :
    (roundTrip hashF pw cd op store).op.children = deselList op.children
    ∧ visOfList (roundTrip hashF pw cd op store).op.children = visOfList op.children
    ∧ allDeselList (roundTrip hashF pw cd op store).op.children = true := by
  have key : (roundTrip hashF pw cd op store).op
      = (hideNodes (hideNodes op true store).1 false (hideNodes op true store).2).1 := by
    unfold roundTrip
    simp only [toggleProtect, h1]
    by_cases hc : hashF pw = hashF ""
    · simp [hc]
    · simp [hc]
  have keyc : (roundTrip hashF pw cd op store).op.children = deselList op.children := by
    rw [key, hideNodes_fst_children, hideNodes_fst_children]
    exact unhide_hide_list op.children h2
  exact ⟨keyc, by rw [keyc]; exact visOfList_desel op.children,
    by rw [keyc]; exact allDeselList_desel op.children⟩

/-- C1 witness: the round trip on the concrete clean container `wC` whose
only child `wX` starts selected. -/
theorem c1_round_trip_witness :
    ((⟨false, ""⟩ : CState).mProtected = false ∧ cleanList wC.children = true)
    ∧ ((roundTrip sampleHash "pw" ⟨false, ""⟩ wC []).op.children = deselList wC.children
      ∧ visOfList (roundTrip sampleHash "pw" ⟨false, ""⟩ wC []).op.children
          = visOfList wC.children
      ∧ allDeselList (roundTrip sampleHash "pw" ⟨false, ""⟩ wC []).op.children = true) :=
  ⟨⟨rfl, by decide⟩, c1_round_trip sampleHash "pw" ⟨false, ""⟩ wC [] rfl (by decide)⟩

/-- C3 counterexample: unlocking with the correct password clears
`m_protected` but does **not** set `m_protectionHash` to the empty string —
the member keeps its old value, refuting the claim's second conjunct at a
concrete input. -/
theorem c3_counterexample :
    (toggleProtect sampleHash (some "abc") ⟨true, sampleHash "abc"⟩ wE []).cd.mProtected
        = false
    ∧ (toggleProtect sampleHash (some "abc") ⟨true, sampleHash "abc"⟩ wE []).cd.mHash
        ≠ "" := by
  decide

/-- C3 as amended: on a matching password the transition sets `locked` to
`false` and invokes `HideNodes(container, hide = false)`, while
`protectionHash` is left unchanged (it is not cleared). -/
theorem c3_unlock_amended (hashF : String → String) (pw : String) (cd : CState)
    (op : Obj) (store : List MTree)
    (h1 : cd.mProtected = true) (h2 : cd.mHash = hashF pw) :
    (toggleProtect hashF (some pw) cd op store).cd.mProtected = false
    ∧ (toggleProtect hashF (some pw) cd op store).cd.mHash = cd.mHash
    ∧ (toggleProtect hashF (some pw) cd op store).op = (hideNodes op false store).1
    ∧ (toggleProtect hashF (some pw) cd op store).store = (hideNodes op false store).2 := by
  by_cases hc : cd.mHash = hashF ""
  · simp [toggleProtect, h1, hc]
  · simp [toggleProtect, h1, hc, h2]

/-- C3 amended witness: the amended unlock transition at a concrete locked
container. -/
theorem c3_unlock_amended_witness :
    ((⟨true, "#a"⟩ : CState).mProtected = true
      ∧ (⟨true, "#a"⟩ : CState).mHash = sampleHash "a")
    ∧ ((toggleProtect sampleHash (some "a") ⟨true, "#a"⟩ wE []).cd.mProtected = false
      ∧ (toggleProtect sampleHash (some "a") ⟨true, "#a"⟩ wE []).cd.mHash
          = (⟨true, "#a"⟩ : CState).mHash
      ∧ (toggleProtect sampleHash (some "a") ⟨true, "#a"⟩ wE []).op
          = (hideNodes wE false []).1
      ∧ (toggleProtect sampleHash (some "a") ⟨true, "#a"⟩ wE []).store
          = (hideNodes wE false []).2) :=
  ⟨⟨rfl, by decide⟩,
   c3_unlock_amended sampleHash "a" ⟨true, "#a"⟩ wE [] rfl (by decide)⟩

/-- C4 counterexample: cancelling the password prompt while unlocking does
leave every field unchanged, but the change-notification block still runs
(`notified = true`), refuting the claim's "no change notification is
signalled" for the unlocking direction. -/
theorem c4_counterexample :
    (toggleProtect sampleHash none ⟨true, "#x"⟩ wE []).notified = true
    ∧ (toggleProtect sampleHash none ⟨true, "#x"⟩ wE []).cd = ⟨true, "#x"⟩ := by
  decide

/-- C4 as amended: a cancelled prompt aborts the transition with no mutation
of the lock fields, the tree, or the material store in either direction; in
the locking direction no change notification is signalled, but in the
unlocking direction the notification block still runs. -/
theorem c4_cancel_amended (hashF : String → String) (cd : CState) (op : Obj)
    (store : List MTree) :
    (cd.mProtected = false →
      toggleProtect hashF none cd op store = ⟨cd, op, store, false, false⟩)
    ∧ (cd.mProtected = true → cd.mHash ≠ hashF "" →
      toggleProtect hashF none cd op store = ⟨cd, op, store, true, false⟩) := by
  constructor
  · intro h1; simp [toggleProtect, h1]
  · intro h1 h2; simp [toggleProtect, h1, h2]

/-- C4 amended witness: both cancellation directions at concrete inputs. -/
theorem c4_cancel_amended_witness :
    ((⟨false, ""⟩ : CState).mProtected = false
      ∧ toggleProtect sampleHash none ⟨false, ""⟩ wE []
          = ⟨⟨false, ""⟩, wE, [], false, false⟩)
    ∧ ((⟨true, "#x"⟩ : CState).mProtected = true
      ∧ (⟨true, "#x"⟩ : CState).mHash ≠ sampleHash ""
      ∧ toggleProtect sampleHash none ⟨true, "#x"⟩ wE []
          = ⟨⟨true, "#x"⟩, wE, [], true, false⟩) :=
  ⟨⟨rfl, (c4_cancel_amended sampleHash ⟨false, ""⟩ wE []).1 rfl⟩,
   ⟨rfl, by decide, (c4_cancel_amended sampleHash ⟨true, "#x"⟩ wE []).2 rfl (by decide)⟩⟩

/-- C5: on a locked container, a wrong password leaves the lock state, the
tree and the material store unchanged (and shows the failure message), and
a stored hash equal to `hash("")` unlocks with the same result for every
prompt outcome — no prompt interaction is needed. -/
theorem c5_auth (hashF : String → String) (pw : String) (cd : CState) (op : Obj)
    (store : List MTree) :
    (cd.mProtected = true → cd.mHash ≠ hashF "" → cd.mHash ≠ hashF pw →
      toggleProtect hashF (some pw) cd op store = ⟨cd, op, store, true, true⟩)
    ∧ (cd.mProtected = true → cd.mHash = hashF "" →
      ∀ prompt : Option String,
        toggleProtect hashF prompt cd op store
          = ⟨⟨false, cd.mHash⟩, (hideNodes op false store).1,
             (hideNodes op false store).2, true, false⟩) := by
  constructor
  · intro h1 h2 h3; simp [toggleProtect, h1, h2, h3]
  · intro h1 h2 prompt; simp [toggleProtect, h1, h2]

/-- C5 witness: a wrong-password attempt and an empty-password-hash unlock
(with a cancelled prompt) at concrete inputs. -/
theorem c5_auth_witness :
    ((⟨true, "#a"⟩ : CState).mProtected = true
      ∧ (⟨true, "#a"⟩ : CState).mHash ≠ sampleHash ""
      ∧ (⟨true, "#a"⟩ : CState).mHash ≠ sampleHash "b"
      ∧ toggleProtect sampleHash (some "b") ⟨true, "#a"⟩ wE []
          = ⟨⟨true, "#a"⟩, wE, [], true, true⟩)
    ∧ ((⟨true, "#"⟩ : CState).mProtected = true
      ∧ (⟨true, "#"⟩ : CState).mHash = sampleHash ""
      ∧ toggleProtect sampleHash none ⟨true, "#"⟩ wE []
          = ⟨⟨false, "#"⟩, (hideNodes wE false []).1, (hideNodes wE false []).2,
             true, false⟩) :=
  ⟨⟨rfl, by decide, by decide,
    (c5_auth sampleHash "b" ⟨true, "#a"⟩ wE []).1 rfl (by decide) (by decide)⟩,
   ⟨rfl, by decide,
    (c5_auth sampleHash "b" ⟨true, "#"⟩ wE []).2 rfl (by decide) none⟩⟩

/-- C7: programmatic `ContainerProtect` fails with no mutation on a null
node, a non-container type, null node data, or an already locked container;
otherwise it locks with the precomputed hash when non-empty (else with
`HashString(password)`), hides the subtree only when `packup` is requested,
and returns success. -/
theorem c7_programmatic (hashF : String → String) (pass hsh : String)
    (packup : Bool) (store : List MTree) :
    (containerProtect hashF none pass hsh packup store = (false, none, store))
    ∧ (∀ op : Obj, op.isContainerType = false →
        containerProtect hashF (some op) pass hsh packup store = (false, some op, store))
    ∧ (∀ op : Obj, op.nodeData = none →
        containerProtect hashF (some op) pass hsh packup store = (false, some op, store))
    ∧ (∀ (op : Obj) (d : CState), op.nodeData = some d → d.mProtected = true →
        containerProtect hashF (some op) pass hsh packup store = (false, some op, store))
    ∧ (∀ (op : Obj) (d : CState), op.isContainerType = true → op.nodeData = some d →
        d.mProtected = false →
        containerProtect hashF (some op) pass hsh packup store
          = (if packup then
              (true,
               some (hideNodes (op.withND (some ⟨true, if hsh = "" then hashF pass else hsh⟩))
                       true store).1,
               (hideNodes (op.withND (some ⟨true, if hsh = "" then hashF pass else hsh⟩))
                  true store).2)
             else
              (true, some (op.withND (some ⟨true, if hsh = "" then hashF pass else hsh⟩)),
               store))) := by
  refine ⟨rfl, ?_, ?_, ?_, ?_⟩
  · intro op h; simp [containerProtect, h]
  · intro op h
    by_cases ht : op.isContainerType = false
    · simp [containerProtect, ht]
    · simp only [Bool.not_eq_false] at ht
      simp [containerProtect, ht, h]
  · intro op d h hp
    by_cases ht : op.isContainerType = false
    · simp [containerProtect, ht]
    · simp only [Bool.not_eq_false] at ht
      simp [containerProtect, ht, h, hp]
  · intro op d ht h hp
    simp only [containerProtect, ht, h, hp]
    cases packup <;> simp

/-- C7 witness: each failure branch and the success branch at concrete
inputs (`wX` not a container, `wE` without node data, `wB` already locked,
`wC` unlocked with `packup = true` and an empty precomputed hash). -/
theorem c7_programmatic_witness :
    (containerProtect sampleHash none "p" "" true [] = (false, none, []))
    ∧ (wX.isContainerType = false
      ∧ containerProtect sampleHash (some wX) "p" "" true [] = (false, some wX, []))
    ∧ (wE.nodeData = none
      ∧ containerProtect sampleHash (some wE) "p" "" true [] = (false, some wE, []))
    ∧ (wB.nodeData = some ⟨true, "h"⟩ ∧ (⟨true, "h"⟩ : CState).mProtected = true
      ∧ containerProtect sampleHash (some wB) "p" "" true [] = (false, some wB, []))
    ∧ (wC.isContainerType = true ∧ wC.nodeData = some ⟨false, ""⟩
      ∧ (⟨false, ""⟩ : CState).mProtected = false
      ∧ containerProtect sampleHash (some wC) "p" "" true []
          = (true,
             some (hideNodes (wC.withND (some ⟨true, sampleHash "p"⟩)) true []).1,
             (hideNodes (wC.withND (some ⟨true, sampleHash "p"⟩)) true []).2)) := by
  have h := c7_programmatic sampleHash "p" "" true []
  exact ⟨h.1, ⟨rfl, h.2.1 wX rfl⟩, ⟨rfl, h.2.2.1 wE rfl⟩,
    ⟨rfl, rfl, h.2.2.2.1 wB ⟨true, "h"⟩ rfl rfl⟩,
    ⟨rfl, rfl, rfl, h.2.2.2.2 wC ⟨false, ""⟩ rfl rfl rfl⟩⟩

/-- C9: writing a container record and reading it back at version 1000
restores `locked`, the icon flag, and — whenever `locked` is true — the
protection hash (the hash token is present in the record exactly when
`locked` is true); reading a version-0 record (no lock fields) onto a
freshly initialized node data yields `locked = false`. -/
theorem c9_persistence (s : RWState) :
    readContainer 1000 initRW (writeContainer s)
      = some (⟨s.hasIcon, s.mProtected, if s.mProtected then s.mHash else ""⟩, [])
    ∧ ((∃ h, HFVal.vstr h ∈ writeContainer s) ↔ s.mProtected = true)
    ∧ (∀ b : Bool, readContainer 0 initRW (writeContainerV0 b) = some (⟨b, false, ""⟩, [])) := by
  obtain ⟨hi, hp, hh⟩ := s
  refine ⟨?_, ?_, ?_⟩
  · cases hi <;> cases hp <;>
      simp [readContainer, writeContainer, readBool, readString, readImage,
        readLockPart, initRW]
  · cases hi <;> cases hp <;> simp [writeContainer]
  · intro b
    cases b <;>
      simp [readContainer, writeContainerV0, readBool, readImage, readLockPart, initRW]

/-- C9 witness: the persisted round trip evaluated at a concrete locked,
icon-carrying record. -/
theorem c9_persistence_witness :
    readContainer 1000 initRW (writeContainer ⟨true, true, "zz"⟩)
      = some (⟨true, true, if true then "zz" else ""⟩, [])
    ∧ ((∃ h, HFVal.vstr h ∈ writeContainer ⟨true, true, "zz"⟩) ↔ true = true)
    ∧ (∀ b : Bool, readContainer 0 initRW (writeContainerV0 b) = some (⟨b, false, ""⟩, [])) :=
  c9_persistence ⟨true, true, "zz"⟩

end ContainerSpec
